import Mathlib

/-
Verification of the engine-visualization simulation core.

The simulation (source: script with rebuildEngine / animate) maintains:
  - a global parameter record (cylinderCount, rpm, speed, timeScale),
  - a crank-angle accumulator advanced each frame from a remapped visual RPM,
  - per-cylinder piston records with a fixed phase and a sinusoidal offset,
  - per-cylinder trail buffers of 100 sample points, shifted each frame,
  - a road-texture scroll offset accumulated each frame,
  - a cosmetic RPM-scaled car-body jitter.

The trail-buffer operations are embedded polymorphically over the scalar
type so that concrete witnesses can be evaluated over the rationals; the
engine state itself uses the real numbers (the kinematics involve pi and
the sine function).
-/

namespace EngineSim

/-- A 3D sample point, one slot of the trail position buffer
(the source stores x, y, z consecutively in a flat typed array). -/
structure Point3 (α : Type) where
  x : α
  y : α
  z : α
deriving DecidableEq

instance {α : Type} [Zero α] : Inhabited (Point3 α) :=
  ⟨⟨0, 0, 0⟩⟩

/-- Number of sample points per trail (source constant TRAIL_LENGTH). -/
def TRAIL_LENGTH : Nat := 100

/-- One iteration of the trail shift loop at index k: copy slot k-1 into
slot k, with the z component incremented by the flow distance. -/
def shiftStep {α : Type} [Add α] [Zero α] (fl : α) (ps : List (Point3 α)) (k : Nat) :
    List (Point3 α) :=
  let p := ps.getD (k - 1) default
  ps.set k ⟨p.x, p.y, p.z + fl⟩

/-- The descending index sequence [n, n-1, ..., 1] traversed by the shift
loop (the source loop runs k from TRAIL_LENGTH - 1 down to 1). -/
def ksList (n : Nat) : List Nat :=
  (List.range n).reverse.map (· + 1)

/-- The trail advance step from the animation loop: shift every slot one
position toward the tail (adding the flow distance to the copied z), then
write the new head point into slot 0. -/
def advance {α : Type} [Add α] [Zero α] (fl : α) (hd : Point3 α)
    (ps : List (Point3 α)) : List (Point3 α) :=
  ((ksList (TRAIL_LENGTH - 1)).foldl (shiftStep fl) ps).set 0 hd

/-- Trail buffer as initialized at (re)build time: every sample at the
cylinder's resting position (0, 0, currentZ). -/
def initTrailPositions {α : Type} [Zero α] (z : α) : List (Point3 α) :=
  List.replicate TRAIL_LENGTH ⟨0, 0, z⟩

/-- A sequence of advance calls applied in order, each with its own flow
distance and head point. -/
def runAdvances {α : Type} [Add α] [Zero α] (ps : List (Point3 α))
    (ops : List (α × Point3 α)) : List (Point3 α) :=
  ops.foldl (fun acc op => advance op.1 op.2 acc) ps

/-- Per-cylinder piston record as stored at rebuild time: fixed phase and
base height, plus the mesh position written by the animation loop
(x stays 0, y is the animated height, z is the cylinder's fixed slot). -/
structure Piston where
  phase : ℝ
  baseY : ℝ
  posX : ℝ
  posY : ℝ
  posZ : ℝ

instance : Inhabited Piston :=
  ⟨⟨0, 0, 0, 0, 0⟩⟩

/-- Per-cylinder trail object: the line object added to the scene
(identified by an id), the backing position buffer, the index of the piston
it samples, and the geometry's needs-update flag. -/
structure TrailObj where
  lineId : Nat
  positions : List (Point3 ℝ)
  pistonIndex : Nat
  needsUpdate : Bool

instance : Inhabited TrailObj :=
  ⟨⟨0, [], 0, false⟩⟩

/-- The mutable simulation state: the global parameter record, the
crank-angle and road-texture-offset accumulators, the per-cylinder piston,
crankshaft and trail collections, the set of trail lines currently in the
scene, the set of disposed trail geometries, and the car-body transform.
Scene objects are identified by ids drawn from a fresh-id counter. -/
structure EngineState where
  cylinderCount : Nat
  rpm : ℝ
  speed : ℝ
  timeScale : ℝ
  crankAngle : ℝ
  roadTexOffsetY : ℝ
  pistons : List Piston
  crankShafts : List ℝ
  trails : List TrailObj
  sceneTrailLines : List Nat
  disposedGeoms : List Nat
  nextLineId : Nat
  carBodyX : ℝ
  carBodyY : ℝ
  carBodyScaleZ : ℝ

/-- Piston stroke length (source constant strokeLength). -/
noncomputable def strokeLength : ℝ := 1.0

/-- Distance between consecutive cylinders (source constant
cylinderSpacing). -/
noncomputable def cylinderSpacing : ℝ := 1.2

/-- The z position of cylinder i at rebuild time: startZ + i * spacing with
startZ = -(count - 1) * spacing / 2. -/
noncomputable def currentZ (count i : Nat) : ℝ :=
  -(((count : ℝ) - 1) * cylinderSpacing) / 2 + (i : ℝ) * cylinderSpacing

/-- The fixed phase of cylinder i: (i * 2 * PI) / count. -/
noncomputable def cylinderPhase (count i : Nat) : ℝ :=
  ((i : ℝ) * 2 * Real.pi) / count

/-- The non-linear RPM remap from the animation loop: identity up to 1000,
then a 10:1 compression of the range above 1000 (anti-aliasing of the
apparent rotation against the display refresh rate). -/
noncomputable def visualRpm (rpm : ℝ) : ℝ :=
  if 1000 < rpm then 1000 + (rpm - 1000) * 0.1 else rpm

/-- The sinusoidal piston offset: (strokeLength / 2) * sin(crankAngle +
phase). -/
noncomputable def yOffset (crankAngle phase : ℝ) : ℝ :=
  (strokeLength / 2) * Real.sin (crankAngle + phase)

/-- Full engine rebuild, translated from rebuildEngine: remove every old
trail line from the scene and dispose its geometry, clear the piston,
crankshaft and trail collections, then recreate count cylinders, each with
its evenly spaced phase and z slot and a freshly allocated trail whose
samples all sit at the cylinder's resting position; finally rescale the
car body to the cylinder count. The crank-angle and road-offset
accumulators are not touched. -/
noncomputable def rebuildEngine (s : EngineState) : EngineState :=
  let count := s.cylinderCount
  let oldTrailIds := s.trails.map TrailObj.lineId
  { s with
    pistons := (List.range count).map fun i =>
      { phase := cylinderPhase count i, baseY := 0, posX := 0, posY := 0,
        posZ := currentZ count i },
    crankShafts := (List.range count).map fun i => currentZ count i,
    trails := (List.range count).map fun i =>
      { lineId := s.nextLineId + i,
        positions := initTrailPositions (currentZ count i),
        pistonIndex := i, needsUpdate := false },
    sceneTrailLines :=
      (s.sceneTrailLines.filter fun id => decide (id ∉ oldTrailIds))
        ++ (List.range count).map (fun i => s.nextLineId + i),
    disposedGeoms := s.disposedGeoms ++ oldTrailIds,
    nextLineId := s.nextLineId + count,
    carBodyScaleZ := max 1 ((count : ℝ) / 4) }

/-- Parameter-change handler, translated from updateState: store the new
rpm, speed and time scale, and rebuild the engine exactly when the
cylinder count changed. -/
noncomputable def updateState (rpm speed : ℝ) (newCyl : Nat) (timeScale : ℝ)
    (s : EngineState) : EngineState :=
  let s' := { s with rpm := rpm, speed := speed, timeScale := timeScale }
  if newCyl ≠ s.cylinderCount then
    rebuildEngine { s' with cylinderCount := newCyl }
  else s'

/-- One animation frame, translated from the animate loop body: scale the
raw clock delta by the time scale, advance the crank angle by the visual
angular velocity, recompute every piston height, advance every trail with
the current flow distance and its piston's position as the new head,
accumulate the road-texture offset, and apply the RPM-scaled car-body
jitter (r1 and r2 stand for the two random draws of the frame). -/
noncomputable def frameStep (rawDt r1 r2 : ℝ) (s : EngineState) : EngineState :=
  let deltaTime := rawDt * s.timeScale
  let vRpm := visualRpm s.rpm
  let angularVelocity := vRpm * 2 * Real.pi / 60
  let crankAngle := s.crankAngle + angularVelocity * deltaTime
  let pistons := s.pistons.map fun p =>
    { p with posY := p.baseY + yOffset crankAngle p.phase }
  let environmentSpeedZ := (s.speed / 3.6) * deltaTime
  let trails := s.trails.map fun t =>
    let p := pistons.getD t.pistonIndex default
    { t with
      positions := advance environmentSpeedZ ⟨p.posX, p.posY, p.posZ⟩ t.positions,
      needsUpdate := true }
  let speedMs := s.speed / 3.6
  let textureOffsetDelta := (speedMs * deltaTime) / 10
  { s with
    crankAngle := crankAngle,
    pistons := pistons,
    trails := trails,
    roadTexOffsetY := s.roadTexOffsetY + textureOffsetDelta,
    carBodyX := if 0 < s.rpm then (r1 - 0.5) * 0.02 * (s.rpm / 8000) else 0,
    carBodyY := if 0 < s.rpm then 0.5 + (r2 - 0.5) * 0.01 * (s.rpm / 8000) else 0.5 }

/-- A concrete state used to instantiate the hypotheses of the claim
theorems: one leftover piston and trail (line id 0, in the scene), the
fresh-id counter past every allocated id, and a cylinder count of 6
pending for the next rebuild. -/
noncomputable def demoState : EngineState :=
  { cylinderCount := 6, rpm := 8000, speed := 50, timeScale := 1,
    crankAngle := 0, roadTexOffsetY := 0,
    pistons := [⟨0, 0, 0, 0, 0⟩],
    crankShafts := [0],
    trails := [⟨0, initTrailPositions 0, 0, false⟩],
    sceneTrailLines := [0], disposedGeoms := [], nextLineId := 1,
    carBodyX := 0, carBodyY := 0.5, carBodyScaleZ := 1 }

lemma getD_set_ne {β : Type} (l : List β) (i j : Nat) (a d : β) (h : i ≠ j) :
    (l.set i a).getD j d = l.getD j d := by
  rw [List.getD_eq_getD_get?, List.getD_eq_getD_get?, List.get?_set_ne a l h]

lemma getD_set_self {β : Type} (l : List β) (i : Nat) (a d : β) (h : i < l.length) :
    (l.set i a).getD i d = a := by
  rw [List.getD_eq_getD_get?, List.get?_set_eq_of_lt a h, Option.getD_some]

lemma length_shiftStep {α : Type} [Add α] [Zero α] (fl : α)
    (ps : List (Point3 α)) (k : Nat) :
    (shiftStep fl ps k).length = ps.length := by
  simp [shiftStep]

lemma length_foldl_shiftStep {α : Type} [Add α] [Zero α] (fl : α) (ks : List Nat) :
    ∀ ps : List (Point3 α), (ks.foldl (shiftStep fl) ps).length = ps.length := by
  induction ks with
  | nil => intro ps; rfl
  | cons a ks ih =>
    intro ps
    rw [List.foldl_cons, ih, length_shiftStep]

lemma length_advance {α : Type} [Add α] [Zero α] (fl : α) (hd : Point3 α)
    (ps : List (Point3 α)) : (advance fl hd ps).length = ps.length := by
  unfold advance
  rw [List.length_set, length_foldl_shiftStep]

lemma ksList_succ (n : Nat) : ksList (n + 1) = (n + 1) :: ksList n := by
  simp [ksList, List.range_succ]

/-- Loop invariant of the shift loop: after processing indices n down to 1,
slot j holds the shifted copy of the original slot j-1 when 1 ≤ j ≤ n, and
is untouched otherwise. -/
lemma foldl_shiftStep_getD {α : Type} [Add α] [Zero α] (fl : α) :
    ∀ (n : Nat) (ps : List (Point3 α)), n < ps.length → ∀ j : Nat,
      ((ksList n).foldl (shiftStep fl) ps).getD j default =
        if 1 ≤ j ∧ j ≤ n then
          ⟨(ps.getD (j - 1) default).x, (ps.getD (j - 1) default).y,
            (ps.getD (j - 1) default).z + fl⟩
        else ps.getD j default := by
  intro n
  induction n with
  | zero =>
    intro ps _ j
    rw [if_neg (by omega)]
    simp [ksList]
  | succ n ih =>
    intro ps hps j
    rw [ksList_succ, List.foldl_cons]
    have hlen : n < (shiftStep fl ps (n + 1)).length := by
      rw [length_shiftStep]; omega
    rw [ih (shiftStep fl ps (n + 1)) hlen j]
    by_cases h1 : 1 ≤ j ∧ j ≤ n
    · rw [if_pos h1, if_pos ⟨h1.1, Nat.le_succ_of_le h1.2⟩]
      have hne : (shiftStep fl ps (n + 1)).getD (j - 1) default
          = ps.getD (j - 1) default := by
        unfold shiftStep
        exact getD_set_ne _ _ _ _ _ (by omega)
      rw [hne]
    · by_cases h2 : j = n + 1
      · subst h2
        rw [if_neg h1, if_pos ⟨by omega, Nat.le_refl _⟩]
        unfold shiftStep
        rw [getD_set_self _ _ _ _ hps]
      · rw [if_neg h1, if_neg (by omega)]
        unfold shiftStep
        exact getD_set_ne _ _ _ _ _ (by omega)

/-- C2: for a trail of length 100, one advance call puts the head point
unchanged into slot 0 and, for every k from 1 to 99, puts into slot k the
previous slot k-1 with x and y unchanged and z incremented by exactly the
flow distance. -/
theorem advance_shift_and_head {α : Type} [Add α] [Zero α] (fl : α)
    (hd : Point3 α) (ps : List (Point3 α)) (hlen : ps.length = TRAIL_LENGTH)
    (k : Nat) (hk1 : 1 ≤ k) (hk2 : k < TRAIL_LENGTH) :
    (advance fl hd ps).getD 0 default = hd ∧
    (advance fl hd ps).getD k default =
      ⟨(ps.getD (k - 1) default).x, (ps.getD (k - 1) default).y,
        (ps.getD (k - 1) default).z + fl⟩ := by
  unfold advance
  have hfold : ((ksList (TRAIL_LENGTH - 1)).foldl (shiftStep fl) ps).length
      = ps.length := length_foldl_shiftStep fl _ ps
  constructor
  · refine getD_set_self _ _ _ _ ?_
    rw [hfold, hlen]
    decide
  · rw [getD_set_ne _ _ _ _ _ (by omega)]
    rw [foldl_shiftStep_getD fl (TRAIL_LENGTH - 1) ps (by rw [hlen]; decide) k]
    rw [if_pos ⟨hk1, by omega⟩]

/-- Witness for C2 at a concrete rational input: a trail of 100 points at
the origin, head point (1, 2, 3), flow distance 2, inspected at slot 5. -/
theorem advance_shift_and_head_witness :
    ((List.replicate TRAIL_LENGTH (⟨0, 0, 0⟩ : Point3 ℚ)).length = TRAIL_LENGTH
      ∧ 1 ≤ 5 ∧ 5 < TRAIL_LENGTH) ∧
    ((advance (2 : ℚ) ⟨1, 2, 3⟩ (List.replicate TRAIL_LENGTH ⟨0, 0, 0⟩)).getD 0 default
        = ⟨1, 2, 3⟩ ∧
      (advance (2 : ℚ) ⟨1, 2, 3⟩ (List.replicate TRAIL_LENGTH ⟨0, 0, 0⟩)).getD 5 default
        = ⟨((List.replicate TRAIL_LENGTH (⟨0, 0, 0⟩ : Point3 ℚ)).getD (5 - 1) default).x,
            ((List.replicate TRAIL_LENGTH (⟨0, 0, 0⟩ : Point3 ℚ)).getD (5 - 1) default).y,
            ((List.replicate TRAIL_LENGTH (⟨0, 0, 0⟩ : Point3 ℚ)).getD (5 - 1) default).z + 2⟩) :=
  ⟨⟨by decide, by decide, by decide⟩,
    advance_shift_and_head 2 ⟨1, 2, 3⟩ _ (by decide) 5 (by decide) (by decide)⟩

/-- C9: the trail length is invariant — the buffer holds exactly 100
points after initialization and after any sequence of advance calls
starting from a 100-point buffer. -/
theorem trail_length_invariant {α : Type} [Add α] [Zero α] (z : α)
    (ps : List (Point3 α)) (ops : List (α × Point3 α))
    (h : ps.length = TRAIL_LENGTH) :
    (initTrailPositions z).length = TRAIL_LENGTH ∧
    (runAdvances ps ops).length = TRAIL_LENGTH := by
  constructor
  · simp [initTrailPositions]
  · induction ops generalizing ps with
    | nil => exact h
    | cons op ops ih =>
      rw [runAdvances, List.foldl_cons]
      exact ih (advance op.1 op.2 ps) (by rw [length_advance]; exact h)

/-- Witness for C9 at a concrete rational input: the freshly initialized
buffer followed by two advance calls. -/
theorem trail_length_invariant_witness :
    (initTrailPositions (0 : ℚ)).length = TRAIL_LENGTH ∧
    ((initTrailPositions (0 : ℚ)).length = TRAIL_LENGTH ∧
      (runAdvances (initTrailPositions (0 : ℚ))
        [((1 : ℚ), ⟨1, 1, 1⟩), ((2 : ℚ), ⟨2, 2, 2⟩)]).length = TRAIL_LENGTH) :=
  ⟨by decide, trail_length_invariant 0 _ _ (by decide)⟩

/-- C1: for rpm at least 0, the visual RPM equals rpm up to 1000 and
1000 + (rpm - 1000) * 0.1 above 1000, and is monotonically non-decreasing
in rpm. -/
theorem visualRpm_policy (rpm rpm' : ℝ) (h0 : 0 ≤ rpm) (hmono : rpm ≤ rpm') :
    (rpm ≤ 1000 → visualRpm rpm = rpm) ∧
    (1000 < rpm → visualRpm rpm = 1000 + (rpm - 1000) * 0.1) ∧
    visualRpm rpm ≤ visualRpm rpm' := by
  unfold visualRpm
  refine ⟨?_, ?_, ?_⟩
  · intro h
    rw [if_neg (by linarith)]
  · intro h
    rw [if_pos h]
  · split_ifs <;> linarith

/-- Witness for C1 at rpm = 500 and rpm' = 2000. -/
theorem visualRpm_policy_witness :
    ((0 : ℝ) ≤ 500 ∧ (500 : ℝ) ≤ 2000) ∧
    (((500 : ℝ) ≤ 1000 → visualRpm 500 = 500) ∧
      ((1000 : ℝ) < 500 → visualRpm 500 = 1000 + (500 - 1000) * 0.1) ∧
      visualRpm 500 ≤ visualRpm 2000) :=
  ⟨⟨by norm_num, by norm_num⟩, visualRpm_policy 500 2000 (by norm_num) (by norm_num)⟩

/-- C3: each frame adds exactly (visualRpm * 2 * PI / 60) * deltaTime *
timeScale to the crank-angle accumulator, and neither a rebuild nor a
parameter update changes the accumulator. -/
theorem crankAngle_update_and_preserved (s : EngineState)
    (rawDt r1 r2 rpm speed timeScale : ℝ) (newCyl : Nat) :
    (frameStep rawDt r1 r2 s).crankAngle
      = s.crankAngle + (visualRpm s.rpm * 2 * Real.pi / 60) * rawDt * s.timeScale ∧
    (rebuildEngine s).crankAngle = s.crankAngle ∧
    (updateState rpm speed newCyl timeScale s).crankAngle = s.crankAngle := by
  refine ⟨?_, rfl, ?_⟩
  · show s.crankAngle + visualRpm s.rpm * 2 * Real.pi / 60 * (rawDt * s.timeScale)
        = s.crankAngle + visualRpm s.rpm * 2 * Real.pi / 60 * rawDt * s.timeScale
    ring
  · unfold updateState
    split_ifs <;> rfl

/-- C5: the per-frame piston height is baseY plus the sinusoidal offset,
the offset law is (strokeLength / 2) * sin(crankAngle + phase) with
strokeLength = 1, the offset magnitude never exceeds 0.5, and 0.5 is
attained at some crank angle for every phase. -/
theorem pistonOffset_law_and_bound :
    strokeLength = 1 ∧
    (∀ (s : EngineState) (rawDt r1 r2 : ℝ),
      (frameStep rawDt r1 r2 s).pistons = s.pistons.map fun p =>
        { p with posY := p.baseY
            + yOffset ((frameStep rawDt r1 r2 s).crankAngle) p.phase }) ∧
    (∀ a φ : ℝ, |yOffset a φ| ≤ 1 / 2) ∧
    (∀ φ : ℝ, ∃ a : ℝ, |yOffset a φ| = 1 / 2) := by
  refine ⟨by norm_num [strokeLength], fun s rawDt r1 r2 => rfl, ?_, ?_⟩
  · intro a φ
    rw [yOffset, abs_mul]
    have h1 : |Real.sin (a + φ)| ≤ 1 := abs_le.mpr
      ⟨Real.neg_one_le_sin _, Real.sin_le_one _⟩
    have h2 : |strokeLength / 2| = 1 / 2 := by norm_num [strokeLength]
    rw [h2]
    nlinarith [abs_nonneg (Real.sin (a + φ))]
  · intro φ
    refine ⟨Real.pi / 2 - φ, ?_⟩
    rw [yOffset]
    have h : Real.pi / 2 - φ + φ = Real.pi / 2 := by ring
    rw [h, Real.sin_pi_div_two]
    norm_num [strokeLength]

/-- C7: the flow distance applied to every trail in a frame is
(speed / 3.6) * deltaTime * timeScale, the vehicle speed in meters per
second times the time-scaled elapsed seconds. -/
theorem trail_flow_distance (s : EngineState) (rawDt r1 r2 : ℝ) :
    (frameStep rawDt r1 r2 s).trails = s.trails.map fun t =>
      let p := (frameStep rawDt r1 r2 s).pistons.getD t.pistonIndex default
      { t with
        positions := advance (s.speed / 3.6 * rawDt * s.timeScale)
          ⟨p.posX, p.posY, p.posZ⟩ t.positions,
        needsUpdate := true } := by
  have h : s.speed / 3.6 * rawDt * s.timeScale
      = s.speed / 3.6 * (rawDt * s.timeScale) := by ring
  rw [h]
  rfl

/-- C8: the per-frame road-texture offset delta is
(speed / 3.6 * deltaTime * timeScale) / 10, and the frame adds it to the
persistent offset accumulator with no modulo. -/
theorem roadTexOffset_update (s : EngineState) (rawDt r1 r2 : ℝ) :
    (frameStep rawDt r1 r2 s).roadTexOffsetY
      = s.roadTexOffsetY + (s.speed / 3.6 * rawDt * s.timeScale) / 10 := by
  show s.roadTexOffsetY + s.speed / 3.6 * (rawDt * s.timeScale) / 10
      = s.roadTexOffsetY + s.speed / 3.6 * rawDt * s.timeScale / 10
  ring

lemma getD_map_range {β : Type} [Inhabited β] (c i : Nat) (f : Nat → β)
    (h : i < c) : ((List.range c).map f).getD i default = f i := by
  have hlen : i < ((List.range c).map f).length := by simpa using h
  rw [List.getD_eq_getElem _ _ hlen]
  simp

/-- C6: after a rebuild with cylinder count c at least 1, there are c
piston records, the phase of cylinder i is i * 2 * PI / c, the phase of
cylinder 0 is 0, and the phases are strictly increasing in the cylinder
index. -/
theorem cylinderPhase_distribution (s : EngineState) (hc : 1 ≤ s.cylinderCount) :
    (rebuildEngine s).pistons.length = s.cylinderCount ∧
    (∀ i, i < s.cylinderCount →
      ((rebuildEngine s).pistons.getD i default).phase
        = (i : ℝ) * 2 * Real.pi / s.cylinderCount) ∧
    ((rebuildEngine s).pistons.getD 0 default).phase = 0 ∧
    (∀ i j, i < j → j < s.cylinderCount →
      ((rebuildEngine s).pistons.getD i default).phase
        < ((rebuildEngine s).pistons.getD j default).phase) := by
  have hps : (rebuildEngine s).pistons = (List.range s.cylinderCount).map
      (fun i => ({ phase := cylinderPhase s.cylinderCount i,
                   baseY := 0, posX := 0, posY := 0,
                   posZ := currentZ s.cylinderCount i } : Piston)) := rfl
  have hc0 : (0 : ℝ) < s.cylinderCount := by
    have : 0 < s.cylinderCount := hc
    exact_mod_cast this
  refine ⟨?_, ?_, ?_, ?_⟩
  · rw [hps]; simp
  · intro i hi
    rw [hps, getD_map_range _ _ _ hi]
    rfl
  · rw [hps, getD_map_range _ _ _ (by omega : 0 < s.cylinderCount)]
    norm_num [cylinderPhase]
  · intro i j hij hj
    rw [hps, getD_map_range _ _ _ (by omega : i < s.cylinderCount),
      getD_map_range _ _ _ hj]
    show cylinderPhase s.cylinderCount i < cylinderPhase s.cylinderCount j
    unfold cylinderPhase
    rw [div_lt_div_right hc0]
    have hij' : (i : ℝ) < j := by exact_mod_cast hij
    exact mul_lt_mul_of_pos_right
      (mul_lt_mul_of_pos_right hij' (by norm_num)) Real.pi_pos

/-- Witness for C6 at the concrete state demoState (cylinder count 6). -/
theorem cylinderPhase_distribution_witness :
    1 ≤ demoState.cylinderCount ∧
    ((rebuildEngine demoState).pistons.length = demoState.cylinderCount ∧
      (∀ i, i < demoState.cylinderCount →
        ((rebuildEngine demoState).pistons.getD i default).phase
          = (i : ℝ) * 2 * Real.pi / demoState.cylinderCount) ∧
      ((rebuildEngine demoState).pistons.getD 0 default).phase = 0 ∧
      (∀ i j, i < j → j < demoState.cylinderCount →
        ((rebuildEngine demoState).pistons.getD i default).phase
          < ((rebuildEngine demoState).pistons.getD j default).phase)) := by
  have hc : 1 ≤ demoState.cylinderCount := by norm_num [demoState]
  exact ⟨hc, cylinderPhase_distribution demoState hc⟩

/-- C4: a rebuild with cylinder count c at least 1 leaves exactly c piston
records and c trail objects, removes every old trail line from the scene
and disposes its geometry, and initializes every sample of every new trail
to its cylinder's resting position (0, 0, currentZ). The freshness
hypothesis states the id counter is ahead of every allocated trail line
id, which holds for every reachable state. -/
theorem rebuild_fresh_trails (s : EngineState) (hc : 1 ≤ s.cylinderCount)
    (hfresh : ∀ t ∈ s.trails, t.lineId < s.nextLineId) :
    (rebuildEngine s).pistons.length = s.cylinderCount ∧
    (rebuildEngine s).trails.length = s.cylinderCount ∧
    (∀ t ∈ s.trails, t.lineId ∉ (rebuildEngine s).sceneTrailLines
      ∧ t.lineId ∈ (rebuildEngine s).disposedGeoms) ∧
    (∀ i, i < s.cylinderCount →
      ∀ p ∈ ((rebuildEngine s).trails.getD i default).positions,
        p = ⟨0, 0, currentZ s.cylinderCount i⟩) := by
  have htr : (rebuildEngine s).trails = (List.range s.cylinderCount).map
      (fun i => ({ lineId := s.nextLineId + i,
                   positions := initTrailPositions (currentZ s.cylinderCount i),
                   pistonIndex := i, needsUpdate := false } : TrailObj)) := rfl
  have hsc : (rebuildEngine s).sceneTrailLines =
      (s.sceneTrailLines.filter fun id =>
        decide (id ∉ s.trails.map TrailObj.lineId))
        ++ (List.range s.cylinderCount).map (fun i => s.nextLineId + i) := rfl
  have hdg : (rebuildEngine s).disposedGeoms
      = s.disposedGeoms ++ s.trails.map TrailObj.lineId := rfl
  refine ⟨?_, ?_, ?_, ?_⟩
  · show ((List.range s.cylinderCount).map _).length = s.cylinderCount
    simp
  · rw [htr]; simp
  · intro t ht
    constructor
    · rw [hsc]
      intro hmem
      rcases List.mem_append.mp hmem with hin | hin
      · have hpa := List.of_mem_filter hin
        rw [decide_eq_true_eq] at hpa
        exact hpa (List.mem_map_of_mem TrailObj.lineId ht)
      · rcases List.mem_map.mp hin with ⟨i, _, hEq⟩
        have hlt := hfresh t ht
        omega
    · rw [hdg]
      exact List.mem_append.mpr (Or.inr (List.mem_map_of_mem _ ht))
  · intro i hi p hp
    rw [htr, getD_map_range _ _ _ hi] at hp
    simp only [initTrailPositions] at hp
    exact List.eq_of_mem_replicate hp

/-- Witness for C4 at the concrete state demoState: one old trail with
line id 0, id counter at 1, rebuild to 6 cylinders. -/
theorem rebuild_fresh_trails_witness :
    (1 ≤ demoState.cylinderCount ∧
      ∀ t ∈ demoState.trails, t.lineId < demoState.nextLineId) ∧
    ((rebuildEngine demoState).pistons.length = demoState.cylinderCount ∧
      (rebuildEngine demoState).trails.length = demoState.cylinderCount ∧
      (∀ t ∈ demoState.trails,
        t.lineId ∉ (rebuildEngine demoState).sceneTrailLines
          ∧ t.lineId ∈ (rebuildEngine demoState).disposedGeoms) ∧
      (∀ i, i < demoState.cylinderCount →
        ∀ p ∈ ((rebuildEngine demoState).trails.getD i default).positions,
          p = ⟨0, 0, currentZ demoState.cylinderCount i⟩)) := by
  have hc : 1 ≤ demoState.cylinderCount := by norm_num [demoState]
  have hf : ∀ t ∈ demoState.trails, t.lineId < demoState.nextLineId := by
    intro t ht
    simp only [demoState, List.mem_singleton] at ht
    subst ht
    norm_num [demoState]
  exact ⟨⟨hc, hf⟩, rebuild_fresh_trails demoState hc hf⟩

/-- C10: for positive rpm up to 8000 and random draws in the unit
interval, the car-body jitter is bounded by 0.01 * (rpm / 8000) in x and
0.005 * (rpm / 8000) around the rest height 0.5 in y; at rpm = 0 the body
sits exactly at x = 0, y = 0.5. -/
theorem carBody_vibration_bound (s : EngineState) (rawDt r1 r2 : ℝ)
    (hr1 : 0 ≤ r1) (hr1' : r1 < 1) (hr2 : 0 ≤ r2) (hr2' : r2 < 1) :
    (0 < s.rpm → s.rpm ≤ 8000 →
      |(frameStep rawDt r1 r2 s).carBodyX| ≤ 0.01 * (s.rpm / 8000) ∧
      |(frameStep rawDt r1 r2 s).carBodyY - 0.5| ≤ 0.005 * (s.rpm / 8000)) ∧
    (s.rpm = 0 →
      (frameStep rawDt r1 r2 s).carBodyX = 0 ∧
      (frameStep rawDt r1 r2 s).carBodyY = 0.5) := by
  have hx : (frameStep rawDt r1 r2 s).carBodyX
      = if 0 < s.rpm then (r1 - 0.5) * 0.02 * (s.rpm / 8000) else 0 := rfl
  have hy : (frameStep rawDt r1 r2 s).carBodyY
      = if 0 < s.rpm then 0.5 + (r2 - 0.5) * 0.01 * (s.rpm / 8000) else 0.5 := rfl
  constructor
  · intro hpos _
    rw [hx, hy, if_pos hpos, if_pos hpos]
    have hq : (0 : ℝ) ≤ s.rpm / 8000 := by positivity
    have ha1 : |r1 - 0.5| ≤ 0.5 := abs_le.mpr ⟨by linarith, by linarith⟩
    have ha2 : |r2 - 0.5| ≤ 0.5 := abs_le.mpr ⟨by linarith, by linarith⟩
    constructor
    · calc |(r1 - 0.5) * 0.02 * (s.rpm / 8000)|
          = |r1 - 0.5| * 0.02 * (s.rpm / 8000) := by
            rw [abs_mul, abs_mul, abs_of_nonneg hq]
            norm_num
        _ ≤ 0.5 * 0.02 * (s.rpm / 8000) := by
            nlinarith [abs_nonneg (r1 - 0.5)]
        _ = 0.01 * (s.rpm / 8000) := by ring
    · have hsub : 0.5 + (r2 - 0.5) * 0.01 * (s.rpm / 8000) - 0.5
          = (r2 - 0.5) * 0.01 * (s.rpm / 8000) := by ring
      rw [hsub]
      calc |(r2 - 0.5) * 0.01 * (s.rpm / 8000)|
          = |r2 - 0.5| * 0.01 * (s.rpm / 8000) := by
            rw [abs_mul, abs_mul, abs_of_nonneg hq]
            norm_num
        _ ≤ 0.5 * 0.01 * (s.rpm / 8000) := by
            nlinarith [abs_nonneg (r2 - 0.5)]
        _ = 0.005 * (s.rpm / 8000) := by ring
  · intro h0
    rw [hx, hy, if_neg (by linarith), if_neg (by linarith)]
    exact ⟨rfl, rfl⟩

/-- Witness for C10 at demoState (rpm = 8000) with both random draws 0 and
a raw frame delta of 1. -/
theorem carBody_vibration_bound_witness :
    ((0 : ℝ) ≤ 0 ∧ (0 : ℝ) < 1) ∧
    ((0 < demoState.rpm → demoState.rpm ≤ 8000 →
      |(frameStep 1 0 0 demoState).carBodyX| ≤ 0.01 * (demoState.rpm / 8000) ∧
      |(frameStep 1 0 0 demoState).carBodyY - 0.5|
        ≤ 0.005 * (demoState.rpm / 8000)) ∧
    (demoState.rpm = 0 →
      (frameStep 1 0 0 demoState).carBodyX = 0 ∧
      (frameStep 1 0 0 demoState).carBodyY = 0.5)) := by
  have h1 : (0 : ℝ) ≤ 0 := le_refl 0
  have h2 : (0 : ℝ) < 1 := by norm_num
  exact ⟨⟨h1, h2⟩, carBody_vibration_bound demoState 1 0 0 h1 h2 h1 h2⟩

end EngineSim
